import Mathlib

/-!
Verification development for the suko image-compression proxy.

Shallow embedding of:
* src/parse-request-parameters.js  (parseRequestParameters)
* src/unnamed/part_000             (worker wiring: queue middleware, idle timer)
* src/unnamed/part_001             (handleImageProxyRequest)

Modelling conventions:
* Query strings are given as the ordered list of decoded (key, value) pairs,
  exactly what URLSearchParams.entries() yields (all values are strings, so
  the Array.isArray branch of the source is statically dead and omitted).
* compressImage and compressImageToBestFormat live in repository files that
  are imported by the handler but are external to the handler's logic; they
  are oracles (fields of World), as is the superagent fetch.  The fetch
  oracle is indexed by the number of fetches already performed in the
  request, so a re-fetch can be observed and can return different data.
* The Express response object is a record: header assoc list, a headersSent
  flag, the body sent, and the redirect target.  Header names at every call
  site of the source are already lowercase (Node lowercases inbound header
  names), so headers are matched as exact strings.
* Logging (logger, beautifyObject, the close observer) has no effect on any
  claim; only the fact that the catch block logs an error is kept, as a flag.
* JS numbers holding byte counts are Nat; a subtraction that can go negative
  (savedImageSize) is Int.
-/

/-- Output image format; the source stores the strings "webp" and "jpeg". -/
inductive ImgFormat where
  | webp
  | jpeg
deriving DecidableEq, Repr

/-- Format flip performed by the alternative-format fallback
    (webp goes to jpeg and jpeg goes to webp). -/
def flipFormat : ImgFormat → ImgFormat
  | .webp => .jpeg
  | .jpeg => .webp

/-- String name of a format, as used in the content-type header. -/
def formatName : ImgFormat → String
  | .webp => "webp"
  | .jpeg => "jpeg"

/-- Digit character test, for the \d of the legacy-URL pattern and parseInt. -/
def isDigitChar (c : Char) : Bool :=
  decide ('0' ≤ c ∧ c ≤ '9')

/-- Longest leading digit run interpreted base 10; none when there is no digit
    (the NaN case of parseInt). -/
def parseDigits (cs : List Char) : Option Nat :=
  let ds := cs.takeWhile isDigitChar
  if ds = [] then none
  else some (ds.foldl (fun acc c => acc * 10 + (c.toNat - 48)) 0)

/-- JS parseInt with radix 10 on a trimmed decimal string: optional sign then a
    digit run; none models NaN. -/
def jsParseInt (s : String) : Option Int :=
  match s.toList with
  | '-' :: rest => (parseDigits rest).map (fun n => -(n : Int))
  | '+' :: rest => (parseDigits rest).map (fun n => (n : Int))
  | rest => (parseDigits rest).map (fun n => (n : Int))

/-- Case-insensitive literal match: if the characters of pat (given lowercase)
    are a prefix of s up to ASCII case, return the rest of s. -/
def ciMatch : List Char → List Char → Option (List Char)
  | [], s => some s
  | _ :: _, [] => none
  | p :: ps, c :: cs => if c.toLower = p then ciMatch ps cs else none

/-- Match of the regex http:\/\/1\.1\.\d\.\d\/bmi\/(https?:\/\/)? (flag i) at
    the head of the character list; on success returns the characters after
    the matched span (the optional group is greedy, as in the regex). -/
def matchLegacyAt (s : List Char) : Option (List Char) := do
  let r1 ← ciMatch "http://1.1.".toList s
  match r1 with
  | d1 :: '.' :: d2 :: r2 =>
    if isDigitChar d1 && isDigitChar d2 then
      let r3 ← ciMatch "/bmi/".toList r2
      match ciMatch "https://".toList r3 with
      | some r4 => some r4
      | none =>
        match ciMatch "http://".toList r3 with
        | some r4 => some r4
        | none => some r3
    else none
  | _ => none

/-- First-match replacement of the legacy pattern by http:// (JS
    String.replace with a non-global regex rewrites only the leftmost match). -/
def replaceLegacy : List Char → List Char
  | [] => []
  | c :: cs =>
    match matchLegacyAt (c :: cs) with
    | some rest => "http://".toList ++ rest
    | none => c :: replaceLegacy cs

/-- The legacy proxy-chaining rewrite applied to the final URL in
    parseRequestParameters. -/
def rewriteLegacyUrl (s : String) : String :=
  String.mk (replaceLegacy s.toList)

/-- The Request Context stored on app.locals by the Parameter Extractor.
    quality is Option Int because parseInt can produce NaN (modelled none). -/
structure Locals where
  url : String
  format : ImgFormat
  grayscale : Bool
  quality : Option Int
deriving DecidableEq, Repr

/-- The four recognized query parameter names. -/
def allowedQueryParameters : List String := ["url", "jpg", "bw", "l"]

/-- The filteredQueryParams object: at most one stored value per allowed key
    (a later occurrence overwrites an earlier one, as JS object assignment
    does). -/
structure FilteredParams where
  url : Option String
  jpg : Option String
  bw : Option String
  l : Option String
deriving DecidableEq, Repr

/-- Empty filteredQueryParams object. -/
def emptyFilteredParams : FilteredParams :=
  { url := none, jpg := none, bw := none, l := none }

/-- Assignment filteredQueryParams[key] = value for an allowed key. -/
def setParam (f : FilteredParams) (k v : String) : FilteredParams :=
  if k = "url" then { f with url := some v }
  else if k = "jpg" then { f with jpg := some v }
  else if k = "bw" then { f with bw := some v }
  else { f with l := some v }

/-- The extractor's loop over URLSearchParams entries: allowed keys go into
    filteredQueryParams, every other pair is appended to extraQueryParams as
    &key=value, or &key when the value is empty (JS falsy value string). -/
def collectParams : List (String × String) → FilteredParams → String →
    FilteredParams × String
  | [], f, extra => (f, extra)
  | (k, v) :: rest, f, extra =>
    if k ∈ allowedQueryParameters then
      collectParams rest (setParam f k v) extra
    else
      collectParams rest f
        (extra ++ (if v ≠ "" then "&" ++ k ++ "=" ++ v else "&" ++ k))

/-- Observable outcome of parseRequestParameters: the static body sent on
    short-circuit, whether next() was called, and the Request Context written
    to app.locals (none when the pipeline was short-circuited). -/
structure ParseResult where
  responseBody : Option String
  nextCalled : Bool
  locals : Option Locals
deriving DecidableEq, Repr

/-- Embedding of parseRequestParameters (src/parse-request-parameters.js).
    Input is the ordered list of decoded query pairs.  A missing or empty url
    parameter is falsy in JS, so both short-circuit with the plaintext
    identification body and without calling next(). -/
def parseRequestParameters (query : List (String × String)) : ParseResult :=
  let fe := collectParams query emptyFilteredParams ""
  let filtered := fe.1
  let extraQueryParams := fe.2
  match filtered.url with
  | none =>
    { responseBody := some "bandwidth-hero-proxy", nextCalled := false,
      locals := none }
  | some u =>
    if u = "" then
      { responseBody := some "bandwidth-hero-proxy", nextCalled := false,
        locals := none }
    else
      let finalUrl := if extraQueryParams ≠ "" then u ++ extraQueryParams else u
      let lStr := match filtered.l with
        | none => "80"
        | some s => if s = "" then "80" else s
      { responseBody := none, nextCalled := true,
        locals := some
          { url := rewriteLegacyUrl finalUrl,
            format := if filtered.jpg = some "1" then .jpeg else .webp,
            grayscale := filtered.bw = some "1",
            quality := jsParseInt lStr } }

/-- Lookup in a header assoc list. -/
def lookupAssoc : List (String × String) → String → Option String
  | [], _ => none
  | (k', v) :: rest, k => if k' = k then some v else lookupAssoc rest k

/-- Insert-or-overwrite in a header assoc list, keeping position on update. -/
def assocSet : List (String × String) → String → String → List (String × String)
  | [], k, v => [(k, v)]
  | (k', v') :: rest, k, v =>
    if k' = k then (k, v) :: rest else (k', v') :: assocSet rest k v

/-- Removal of a header name from an assoc list. -/
def removeAssoc : List (String × String) → String → List (String × String)
  | [], _ => []
  | (k', v') :: rest, k =>
    if k' = k then removeAssoc rest k else (k', v') :: removeAssoc rest k

/-- The Express response object as observed by the handler: header map,
    whether headers were sent, the body passed to send, and the redirect
    target. -/
structure ResponseState where
  headersSent : Bool
  headers : List (String × String)
  body : Option (List Nat)
  redirectedTo : Option String
deriving DecidableEq, Repr

/-- Fresh response for a new request. -/
def initialResponse : ResponseState :=
  { headersSent := false, headers := [], body := none, redirectedTo := none }

/-- res.set of a single header. -/
def setHeader (r : ResponseState) (k v : String) : ResponseState :=
  { r with headers := assocSet r.headers k v }

/-- res.set of an object of headers. -/
def setHeaders (r : ResponseState) (hs : List (String × String)) : ResponseState :=
  hs.foldl (fun acc kv => setHeader acc kv.1 kv.2) r

/-- res.removeHeader. -/
def removeHeader (r : ResponseState) (k : String) : ResponseState :=
  { r with headers := removeAssoc r.headers k }

/-- getHeader on the response, used to state header properties. -/
def getHeader (r : ResponseState) (k : String) : Option String :=
  lookupAssoc r.headers k

/-- res.send of a byte body: marks headers as sent. -/
def sendBody (r : ResponseState) (b : List Nat) : ResponseState :=
  { r with headersSent := true, body := some b }

/-- res.redirect: marks headers as sent and records the target. -/
def redirectResponse (r : ResponseState) (u : String) : ResponseState :=
  { r with headersSent := true, redirectedTo := some u }

/-- Result of the upstream fetch: response headers and the buffered body. -/
structure FetchResult where
  headers : List (String × String)
  body : List Nat
deriving DecidableEq, Repr

/-- The info record of a compression result; only size is read. -/
structure CompressedImageInfo where
  size : Nat
deriving DecidableEq, Repr

/-- The image record of a compression result: data buffer and info. -/
structure CompressedImageData where
  data : List Nat
  info : CompressedImageInfo
deriving DecidableEq, Repr

/-- A compression result: chosen format, image, and (in best-format mode
    only) a per-candidate size breakdown used for logging. -/
structure CompressedImageResult where
  format : ImgFormat
  image : CompressedImageData
  sizes : Option (List (ImgFormat × Nat))
deriving DecidableEq, Repr

/-- Oracles for the handler's effectful collaborators: the superagent fetch
    (indexed by how many fetches this request performed before, so a second
    fetch is observable) and the two codec entry points, whose sources are
    imported modules external to the handler under verification.  An error
    value is a thrown exception, caught by the handler's catch block. -/
structure World where
  fetch : Nat → String → Except String FetchResult
  compressImage : List Nat → Locals → Except String CompressedImageResult
  compressImageToBestFormat : List Nat → Locals → Except String CompressedImageResult

/-- Process-wide configuration read from the environment by the handler. -/
structure Env where
  useBestCompressionFormat : Bool
  enableAlternativeFormat : Bool
deriving DecidableEq, Repr

/-- The compression call the handler performs: compressImageToBestFormat when
    USE_BEST_COMPRESSION_FORMAT is 'true', compressImage otherwise. -/
def compressUsed (w : World) (env : Env) (body : List Nat) (locals : Locals) :
    Except String CompressedImageResult :=
  if env.useBestCompressionFormat then w.compressImageToBestFormat body locals
  else w.compressImage body locals

/-- The assignment to app.locals.format at the top of the handler: the format
    is flipped when this is the alternative attempt, and reassigned unchanged
    otherwise. -/
def formatAssign (locals : Locals) (tryAlternativeFormat : Bool) : Locals :=
  { locals with
      format := if tryAlternativeFormat then flipFormat locals.format
                else locals.format }

/-- Observable outcome of a handler run: final response, final app.locals,
    the URLs of attempted fetches in order, the app.locals value passed to
    each compression call in order, how many fallback recursions were taken,
    and whether the catch block logged an error. -/
structure HandlerResult where
  response : ResponseState
  locals : Locals
  fetchUrls : List String
  compressAttempts : List Locals
  retries : Nat
  errorLogged : Bool
deriving DecidableEq, Repr

/-- Embedding of handleImageProxyRequest (src/unnamed/part_001).  fetchIdx
    counts fetches already performed by this request.  The recursion mirrors
    the source: it is taken only from a non-win on a first attempt with the
    alternative-format feature flag enabled, and re-enters the whole handler,
    fetch included. -/
def handleImageProxyRequest (w : World) (env : Env) (fetchIdx : Nat)
    (locals : Locals) (appResponse : ResponseState)
    (tryAlternativeFormat : Bool) : HandlerResult :=
  let locals1 := formatAssign locals tryAlternativeFormat
  let url := locals1.url
  match w.fetch fetchIdx url with
  | .error _e =>
    let resp1 := if appResponse.headersSent then appResponse
                 else redirectResponse appResponse url
    { response := resp1, locals := locals1, fetchUrls := [url],
      compressAttempts := [], retries := 0, errorLogged := true }
  | .ok externalImageResponse =>
    let resp1 := setHeaders appResponse externalImageResponse.headers
    match compressUsed w env externalImageResponse.body locals1 with
    | .error _e =>
      let resp2 := if resp1.headersSent then resp1 else redirectResponse resp1 url
      { response := resp2, locals := locals1, fetchUrls := [url],
        compressAttempts := [locals1], retries := 0, errorLogged := true }
    | .ok compressedImageResult =>
      let compressedImageSize := compressedImageResult.image.info.size
      let originalImageSize := externalImageResponse.body.length
      let savedImageSize : Int :=
        (originalImageSize : Int) - (compressedImageSize : Int)
      let resp2 := removeHeader resp1 "transfer-encoding"
      if 0 < savedImageSize then
        let resp3 := setHeaders resp2
          [("content-encoding", "identity"),
           ("content-type", "image/" ++ formatName compressedImageResult.format),
           ("content-length", toString compressedImageSize),
           ("x-original-size", toString originalImageSize),
           ("x-bytes-saved", toString savedImageSize)]
        { response := sendBody resp3 compressedImageResult.image.data,
          locals := locals1, fetchUrls := [url],
          compressAttempts := [locals1], retries := 0, errorLogged := false }
      else
        if h : (!tryAlternativeFormat && env.enableAlternativeFormat) = true then
          let rest := handleImageProxyRequest w env (fetchIdx + 1) locals1 resp2 true
          { rest with
              fetchUrls := url :: rest.fetchUrls,
              compressAttempts := locals1 :: rest.compressAttempts,
              retries := rest.retries + 1 }
        else
          { response := redirectResponse resp2 url, locals := locals1,
            fetchUrls := [url], compressAttempts := [locals1], retries := 0,
            errorLogged := false }
termination_by (if tryAlternativeFormat then 0 else 1)
decreasing_by
  simp only [Bool.and_eq_true, Bool.not_eq_true'] at h
  simp [h.1]

/-- Embedding of the setInterval callback of src/unnamed/part_000: the tick
    returns early when the time since the last request is below 10 * 1000 or
    above 60 * 1000 milliseconds, and otherwise reaches the reclamation hint
    (the gc call, when the runtime exposes one). -/
def idleReclaimFires (timeSinceLastRequest : Nat) : Bool :=
  if timeSinceLastRequest < 10 * 1000 || timeSinceLastRequest > 60 * 1000 then
    false
  else
    true

/-- Configuration object passed to the admission middleware. -/
structure AdmissionConfig where
  activeLimit : Int
  queuedLimit : Int
deriving DecidableEq, Repr

/-- Modelled from the spec: the state of the admission middleware queue (the
    express-queue package's source is a dependency not under src/): the count
    of active requests and the identities of waiting requests in arrival
    order, front first. -/
structure AdmissionState where
  active : Nat
  queued : List Nat
deriving DecidableEq, Repr

/-- Modelled from the spec: what the admission middleware does with an
    arriving request. -/
inductive AdmissionDecision where
  | proceed
  | enqueued
  | rejected
deriving DecidableEq, Repr

/-- Modelled from the spec: arrival at the admission middleware.  Below
    activeLimit the request proceeds immediately; otherwise it waits at the
    back of the queue in arrival order, unless queuedLimit is finite
    (non-negative; the sentinel -1 means unbounded queueing) and the queued
    count has reached it, in which case the request is rejected immediately. -/
def admitRequest (cfg : AdmissionConfig) (st : AdmissionState) (reqId : Nat) :
    AdmissionDecision × AdmissionState :=
  if (st.active : Int) < cfg.activeLimit then
    (.proceed, { st with active := st.active + 1 })
  else if 0 ≤ cfg.queuedLimit ∧ cfg.queuedLimit ≤ (st.queued.length : Int) then
    (.rejected, st)
  else
    (.enqueued, { st with queued := st.queued ++ [reqId] })

/-- Modelled from the spec: a slot frees in the admission middleware.  The
    request that has waited longest (the front of the queue) becomes active;
    with an empty queue the active count just drops. -/
def releaseSlot (st : AdmissionState) : Option Nat × AdmissionState :=
  match st.queued with
  | [] => (none, { st with active := st.active - 1 })
  | next :: rest => (some next, { st with queued := rest })

/-- Worker wiring of src/unnamed/part_000: queueSize is false (modelled none)
    when QUEUE_SIZE_PER_CLUSTER is unset, otherwise its parsed value; the
    admission middleware is installed only when queueSize is not false, and
    is then configured with activeLimit = queueSize and queuedLimit = -1. -/
def workerAdmissionConfig (queueSize : Option Int) : Option AdmissionConfig :=
  match queueSize with
  | none => none
  | some n => some { activeLimit := n, queuedLimit := -1 }

/-- Admission of a request by the worker: with no middleware installed
    (queueSize unset) every request proceeds immediately with the state
    untouched; otherwise the middleware decides. -/
def requestAdmitted (queueSize : Option Int) (st : AdmissionState)
    (reqId : Nat) : AdmissionDecision × AdmissionState :=
  match workerAdmissionConfig queueSize with
  | none => (.proceed, st)
  | some cfg => admitRequest cfg st reqId

/-- Interleaving of two requests of one worker at the fetch await point of
    the single-threaded event loop.  Request A is parsed (writing app.locals)
    and its handler runs up to the superagent await: the format assignment
    executes and the url is captured into a local variable.  During A's
    await, request B arrives and is parsed, overwriting the same app.locals
    object.  A then resumes and passes app.locals to its compression call;
    this definition returns the Locals value that call observes (none when A
    itself was short-circuited by the extractor). -/
def localsObservedByInterleavedCompress (qA qB : List (String × String)) :
    Option Locals :=
  match (parseRequestParameters qA).locals with
  | none => none
  | some ctxA =>
    let shared := formatAssign ctxA false
    let _urlA := shared.url
    match (parseRequestParameters qB).locals with
    | none => some shared
    | some ctxB => some ctxB

/-- Concrete environment for the C1 scenario: single-format mode with the
    alternative-format fallback enabled. -/
def envC1 : Env :=
  { useBestCompressionFormat := false, enableAlternativeFormat := true }

/-- Concrete world for the C1 scenario: every fetch succeeds with a 3-byte
    body, and single-format compression always returns a 5-byte result, so
    every attempt is a non-win. -/
def wC1 : World :=
  { fetch := fun _ _ => .ok { headers := [], body := [0, 0, 0] },
    compressImage := fun _ locals =>
      .ok { format := locals.format,
            image := { data := [1], info := { size := 5 } }, sizes := none },
    compressImageToBestFormat := fun _ locals =>
      .ok { format := locals.format,
            image := { data := [1], info := { size := 5 } }, sizes := none } }

/-- Concrete Request Context for the handler scenarios. -/
def localsEx : Locals :=
  { url := "http://images.example/cat.png", format := .webp,
    grayscale := false, quality := some 80 }

/-- Concrete environment for the C3 scenario: best-format mode with the
    alternative-format fallback enabled. -/
def envC3 : Env :=
  { useBestCompressionFormat := true, enableAlternativeFormat := true }

/-- Query string of request A for the interleaving scenario: a url only, so
    the format defaults to webp. -/
def qAc5 : List (String × String) :=
  [("url", "http://a.example/one.png")]

/-- Query string of request B for the interleaving scenario: jpg=1, so the
    format is jpeg and the context differs from A's. -/
def qBc5 : List (String × String) :=
  [("url", "http://b.example/two.png"), ("jpg", "1")]

/-- Concrete world whose compression result has exactly the original's size
    (a tie), for the strict-comparison boundary. -/
def wTie : World :=
  { fetch := fun _ _ => .ok { headers := [], body := [0, 0, 0] },
    compressImage := fun _ locals =>
      .ok { format := locals.format,
            image := { data := [1], info := { size := 3 } }, sizes := none },
    compressImageToBestFormat := fun _ locals =>
      .ok { format := locals.format,
            image := { data := [1], info := { size := 3 } }, sizes := none } }

/-- Concrete world whose fetch always throws, for the error path. -/
def wErr : World :=
  { fetch := fun _ _ => .error "ECONNRESET",
    compressImage := fun _ locals =>
      .ok { format := locals.format,
            image := { data := [1], info := { size := 3 } }, sizes := none },
    compressImageToBestFormat := fun _ locals =>
      .ok { format := locals.format,
            image := { data := [1], info := { size := 3 } }, sizes := none } }

/-- Concrete world matching the spec's win-path example: 1000 original bytes
    compressed to 600. -/
def wWin : World :=
  { fetch := fun _ _ => .ok { headers := [], body := List.replicate 1000 0 },
    compressImage := fun _ locals =>
      .ok { format := locals.format,
            image := { data := [9], info := { size := 600 } }, sizes := none },
    compressImageToBestFormat := fun _ locals =>
      .ok { format := locals.format,
            image := { data := [9], info := { size := 600 } }, sizes := none } }

/-! Helper lemmas about the embedded operations. -/

/-- The format assignment never touches the url field. -/
theorem formatAssign_url (l : Locals) (b : Bool) : (formatAssign l b).url = l.url :=
  rfl

/-- On a first attempt the format assignment rewrites the field with its own
    value, leaving the context unchanged. -/
theorem formatAssign_false (l : Locals) : formatAssign l false = l := by
  simp [formatAssign]

/-- On the alternative attempt the format assignment flips the format. -/
theorem formatAssign_true_format (l : Locals) :
    (formatAssign l true).format = flipFormat l.format :=
  rfl

/-- Setting a header makes it present with the set value. -/
theorem lookupAssoc_assocSet_self (l : List (String × String)) (k v : String) :
    lookupAssoc (assocSet l k v) k = some v := by
  induction l with
  | nil => simp [assocSet, lookupAssoc]
  | cons p rest ih =>
    by_cases h : p.1 = k
    · simp [assocSet, h, lookupAssoc]
    · simp [assocSet, h, lookupAssoc, ih]

/-- Setting a header leaves every other header name unchanged. -/
theorem lookupAssoc_assocSet_ne (l : List (String × String)) (k v k' : String)
    (h : k' ≠ k) : lookupAssoc (assocSet l k v) k' = lookupAssoc l k' := by
  induction l with
  | nil => simp [assocSet, lookupAssoc, Ne.symm h]
  | cons p rest ih =>
    by_cases hp : p.1 = k
    · simp [assocSet, hp, lookupAssoc, Ne.symm h]
    · simp only [assocSet, hp, if_false, lookupAssoc]
      by_cases hp' : p.1 = k'
      · simp [hp']
      · simp [hp', ih]

/-- Removing a header makes it absent. -/
theorem lookupAssoc_removeAssoc_self (l : List (String × String)) (k : String) :
    lookupAssoc (removeAssoc l k) k = none := by
  induction l with
  | nil => simp [removeAssoc, lookupAssoc]
  | cons p rest ih =>
    by_cases h : p.1 = k
    · simp [removeAssoc, h, ih]
    · simp [removeAssoc, h, lookupAssoc, ih]

/-- Setting headers does not mark them as sent. -/
theorem setHeaders_headersSent (r : ResponseState) (hs : List (String × String)) :
    (setHeaders r hs).headersSent = r.headersSent := by
  induction hs generalizing r with
  | nil => rfl
  | cons p rest ih => simpa [setHeaders, setHeader] using ih _

/-- Setting headers does not send a body. -/
theorem setHeaders_body (r : ResponseState) (hs : List (String × String)) :
    (setHeaders r hs).body = r.body := by
  induction hs generalizing r with
  | nil => rfl
  | cons p rest ih => simpa [setHeaders, setHeader] using ih _

/-- Setting headers does not redirect. -/
theorem setHeaders_redirectedTo (r : ResponseState) (hs : List (String × String)) :
    (setHeaders r hs).redirectedTo = r.redirectedTo := by
  induction hs generalizing r with
  | nil => rfl
  | cons p rest ih => simpa [setHeaders, setHeader] using ih _

/-- Characterization of a handler run whose tryAlternativeFormat flag is set:
    it never recurses, attempts exactly one fetch of the context url, leaves
    app.locals at the flipped context, and makes at most one compression
    attempt. -/
theorem handle_true_spec (w : World) (env : Env) (idx : Nat) (l : Locals)
    (r : ResponseState) :
    (handleImageProxyRequest w env idx l r true).retries = 0 ∧
    (handleImageProxyRequest w env idx l r true).fetchUrls = [l.url] ∧
    (handleImageProxyRequest w env idx l r true).locals = formatAssign l true ∧
    (handleImageProxyRequest w env idx l r true).compressAttempts.length ≤ 1 := by
  rw [handleImageProxyRequest]
  cases hf : w.fetch idx (formatAssign l true).url with
  | error e => simp [hf, formatAssign_url]
  | ok fr =>
    cases hc : compressUsed w env fr.body (formatAssign l true) with
    | error e => simp [hf, hc, formatAssign_url]
    | ok c =>
      by_cases h0 : c.image.info.size < fr.body.length
      · simp [hf, hc, h0, formatAssign_url]
      · simp [hf, hc, h0, formatAssign_url]

/-- A first-attempt handler run makes at most two compression attempts and at
    most one fallback recursion, whatever the oracles do. -/
theorem handle_false_bounds (w : World) (env : Env) (idx : Nat) (locals : Locals)
    (resp : ResponseState) :
    (handleImageProxyRequest w env idx locals resp false).compressAttempts.length ≤ 2 ∧
    (handleImageProxyRequest w env idx locals resp false).retries ≤ 1 := by
  rw [handleImageProxyRequest]
  cases hf : w.fetch idx (formatAssign locals false).url with
  | error e => simp [hf]
  | ok fr =>
    cases hc : compressUsed w env fr.body (formatAssign locals false) with
    | error e => simp [hf, hc]
    | ok c =>
      by_cases h0 : c.image.info.size < fr.body.length
      · simp [hf, hc, h0]
      · by_cases henv : env.enableAlternativeFormat
        · obtain ⟨h1, _, _, h4⟩ := handle_true_spec w env (idx + 1)
            (formatAssign locals false)
            (removeHeader (setHeaders resp fr.headers) "transfer-encoding")
          simp [hf, hc, h0, henv]
          omega
        · simp [hf, hc, h0, henv]

/-- An alternative-attempt run that compresses without a size win redirects
    to the context url, takes no further recursion and makes exactly one
    compression attempt. -/
theorem handle_true_nonwin_redirect (w : World) (env : Env) (idx : Nat)
    (locals : Locals) (resp : ResponseState) (fr : FetchResult)
    (c : CompressedImageResult)
    (hf : w.fetch idx locals.url = .ok fr)
    (hc : compressUsed w env fr.body (formatAssign locals true) = .ok c)
    (hnowin : fr.body.length ≤ c.image.info.size) :
    (handleImageProxyRequest w env idx locals resp true).response.redirectedTo =
      some locals.url ∧
    (handleImageProxyRequest w env idx locals resp true).retries = 0 ∧
    (handleImageProxyRequest w env idx locals resp true).compressAttempts.length = 1 := by
  have h0 : ¬(c.image.info.size < fr.body.length) := by omega
  rw [handleImageProxyRequest]
  simp [formatAssign_url, hf, hc, h0, redirectResponse]

/-- Under the extractor's loop, a query with no url key never populates the
    url field of filteredQueryParams. -/
theorem collectParams_url_of_ne (query : List (String × String))
    (f : FilteredParams) (e : String) (h : ∀ p ∈ query, p.1 ≠ "url") :
    (collectParams query f e).1.url = f.url := by
  induction query generalizing f e with
  | nil => rfl
  | cons p rest ih =>
    obtain ⟨k, v⟩ := p
    have hk : k ≠ "url" := h (k, v) (List.mem_cons_self _ _)
    have hrest : ∀ q ∈ rest, q.1 ≠ "url" := fun q hq => h q (List.mem_cons_of_mem _ hq)
    simp only [collectParams]
    split
    · rw [ih _ _ hrest]
      simp only [setParam, hk, if_false]
      split
      · rfl
      · split
        · rfl
        · rfl
    · exact ih _ _ hrest

/-! Claim theorems. -/

/-- C1 (counterexample): with the fallback enabled, a first attempt whose
    compression yields savedSize ≤ 0 takes the fallback recursion
    (retries = 1) and the handler fetches the target URL twice, contradicting
    the claim that the re-run reuses the already-fetched bytes with no second
    fetch. -/
theorem c1_counterexample :
    (handleImageProxyRequest wC1 envC1 0 localsEx initialResponse false).fetchUrls =
      ["http://images.example/cat.png", "http://images.example/cat.png"] ∧
    (handleImageProxyRequest wC1 envC1 0 localsEx initialResponse false).retries = 1 := by
  constructor <;>
    simp [handleImageProxyRequest, wC1, envC1, localsEx, compressUsed, formatAssign,
      initialResponse]

/-- C1 (corrected): when the first compression attempt yields savedSize ≤ 0,
    the alternative-format fallback is enabled, and it is the first attempt,
    the decision engine re-runs exactly once with the flipped format, but it
    fetches the target URL a second time rather than reusing the
    already-fetched original bytes. -/
theorem c1_fallback_refetches (w : World) (env : Env) (locals : Locals)
    (fr : FetchResult) (c : CompressedImageResult)
    (henv : env.enableAlternativeFormat = true)
    (hf : w.fetch 0 locals.url = .ok fr)
    (hc : compressUsed w env fr.body locals = .ok c)
    (hnowin : fr.body.length ≤ c.image.info.size) :
    (handleImageProxyRequest w env 0 locals initialResponse false).retries = 1 ∧
    (handleImageProxyRequest w env 0 locals initialResponse false).fetchUrls =
      [locals.url, locals.url] ∧
    (handleImageProxyRequest w env 0 locals initialResponse false).locals.format =
      flipFormat locals.format := by
  have h0 : ¬(c.image.info.size < fr.body.length) := by omega
  rw [handleImageProxyRequest]
  simp only [formatAssign_false, formatAssign_url, hf, hc, henv]
  have hspec := handle_true_spec w env 1 locals
    (removeHeader (setHeaders initialResponse fr.headers) "transfer-encoding")
  simp [h0, hspec.1, hspec.2.1, hspec.2.2.1, formatAssign_true_format]

/-- C1 (witness): the corrected statement evaluated at the concrete
    non-winning world. -/
theorem c1_fallback_refetches_witness :
    (handleImageProxyRequest wC1 envC1 0 localsEx initialResponse false).retries = 1 ∧
    (handleImageProxyRequest wC1 envC1 0 localsEx initialResponse false).fetchUrls =
      [localsEx.url, localsEx.url] ∧
    (handleImageProxyRequest wC1 envC1 0 localsEx initialResponse false).locals.format =
      flipFormat localsEx.format :=
  c1_fallback_refetches wC1 envC1 localsEx { headers := [], body := [0, 0, 0] }
    { format := ImgFormat.webp, image := { data := [1], info := { size := 5 } },
      sizes := none }
    rfl rfl rfl (by decide)

/-- C2 (confirmed): every first-attempt run makes at most two compression
    attempts and at most one fallback recursion; and on the alternative
    attempt a non-win (savedSize ≤ 0) always terminates with a redirect to
    the original URL, with no further recursion and exactly one compression
    attempt, so the fallback recursion is bounded at depth one. -/
theorem c2_recursion_bounded :
    (∀ (w : World) (env : Env) (idx : Nat) (locals : Locals) (resp : ResponseState),
      (handleImageProxyRequest w env idx locals resp false).compressAttempts.length ≤ 2 ∧
      (handleImageProxyRequest w env idx locals resp false).retries ≤ 1) ∧
    (∀ (w : World) (env : Env) (idx : Nat) (locals : Locals) (resp : ResponseState)
      (fr : FetchResult) (c : CompressedImageResult),
      w.fetch idx locals.url = .ok fr →
      compressUsed w env fr.body (formatAssign locals true) = .ok c →
      fr.body.length ≤ c.image.info.size →
      (handleImageProxyRequest w env idx locals resp true).response.redirectedTo =
        some locals.url ∧
      (handleImageProxyRequest w env idx locals resp true).retries = 0 ∧
      (handleImageProxyRequest w env idx locals resp true).compressAttempts.length = 1) :=
  ⟨fun w env idx locals resp => handle_false_bounds w env idx locals resp,
   fun w env idx locals resp fr c hf hc hn =>
     handle_true_nonwin_redirect w env idx locals resp fr c hf hc hn⟩

/-- C2 (witness): the bound and the alternative-attempt redirect evaluated at
    concrete worlds (a tie on the alternative attempt redirects to the
    original URL). -/
theorem c2_recursion_bounded_witness :
    (handleImageProxyRequest wC1 envC1 0 localsEx initialResponse false).compressAttempts.length ≤ 2 ∧
    (handleImageProxyRequest wTie envC1 0 localsEx initialResponse true).response.redirectedTo =
      some localsEx.url :=
  ⟨(c2_recursion_bounded.1 wC1 envC1 0 localsEx initialResponse).1,
   (c2_recursion_bounded.2 wTie envC1 0 localsEx initialResponse
      { headers := [], body := [0, 0, 0] }
      { format := ImgFormat.jpeg, image := { data := [1], info := { size := 3 } },
        sizes := none }
      rfl rfl (by decide)).1⟩

/-- C3 (counterexample): in best-format mode with the alternative-format flag
    enabled, a first-attempt non-win still takes the fallback recursion
    (retries = 1), contradicting the claim that in best-format mode a non-win
    goes directly to redirect with no second attempt. -/
theorem c3_counterexample :
    envC3.useBestCompressionFormat = true ∧
    (handleImageProxyRequest wC1 envC3 0 localsEx initialResponse false).retries = 1 :=
  ⟨rfl, by
    simp [handleImageProxyRequest, wC1, envC3, localsEx, compressUsed, formatAssign,
      initialResponse]⟩

/-- C3 (corrected): after a successful first-attempt fetch and compression
    with savedSize ≤ 0, the fallback retry is taken exactly when the
    alternative-format feature flag is enabled; the source never checks the
    compression mode, so best-format mode retries under the same condition as
    single-format mode. -/
theorem c3_fallback_condition (w : World) (env : Env) (locals : Locals)
    (fr : FetchResult) (c : CompressedImageResult)
    (hf : w.fetch 0 locals.url = .ok fr)
    (hc : compressUsed w env fr.body locals = .ok c)
    (hnowin : fr.body.length ≤ c.image.info.size) :
    (handleImageProxyRequest w env 0 locals initialResponse false).retries =
      if env.enableAlternativeFormat then 1 else 0 := by
  have h0 : ¬(c.image.info.size < fr.body.length) := by omega
  rw [handleImageProxyRequest]
  by_cases henv : env.enableAlternativeFormat
  · obtain ⟨h1, _, _, _⟩ := handle_true_spec w env 1 locals
      (removeHeader (setHeaders initialResponse fr.headers) "transfer-encoding")
    simp [formatAssign_false, hf, hc, h0, henv, h1]
  · simp [formatAssign_false, hf, hc, h0, henv]

/-- C3 (witness): the corrected condition evaluated in best-format mode with
    the flag enabled. -/
theorem c3_fallback_condition_witness :
    (handleImageProxyRequest wC1 envC3 0 localsEx initialResponse false).retries =
      if envC3.enableAlternativeFormat then 1 else 0 :=
  c3_fallback_condition wC1 envC3 localsEx { headers := [], body := [0, 0, 0] }
    { format := ImgFormat.webp, image := { data := [1], info := { size := 5 } },
      sizes := none }
    rfl rfl (by decide)

/-- C4 (confirmed): in a run that cannot retry (alternative attempt, or
    fallback flag disabled), the compressed bytes are served precisely when
    compressedSize < originalSize, and an exact tie never serves the
    compressed body and redirects to the original URL instead. -/
theorem c4_strict_size_comparison (w : World) (env : Env) (idx : Nat)
    (locals : Locals) (alt : Bool) (fr : FetchResult) (c : CompressedImageResult)
    (hmode : alt = true ∨ env.enableAlternativeFormat = false)
    (hf : w.fetch idx locals.url = .ok fr)
    (hc : compressUsed w env fr.body (formatAssign locals alt) = .ok c) :
    ((handleImageProxyRequest w env idx locals initialResponse alt).response.body =
        some c.image.data ↔ c.image.info.size < fr.body.length) ∧
    (c.image.info.size = fr.body.length →
      (handleImageProxyRequest w env idx locals initialResponse alt).response.body =
        none ∧
      (handleImageProxyRequest w env idx locals initialResponse alt).response.redirectedTo =
        some locals.url) := by
  rw [handleImageProxyRequest]
  by_cases h0 : c.image.info.size < fr.body.length
  · constructor
    · simp [formatAssign_url, hf, hc, h0, sendBody]
    · intro he; exact absurd he (by omega)
  · have hcond : (!alt && env.enableAlternativeFormat) = false := by
      rcases hmode with h | h <;> simp [h]
    simp [formatAssign_url, hf, hc, h0, hcond, redirectResponse, setHeaders_body,
      removeHeader, initialResponse]

/-- C4 (witness): the strict boundary evaluated at an exact tie (3 bytes in,
    3 bytes out): the compressed body is not served and the response
    redirects. -/
theorem c4_strict_size_comparison_witness :
    ((handleImageProxyRequest wTie envC1 0 localsEx initialResponse true).response.body =
        some [1] ↔ 3 < 3) ∧
    (3 = 3 →
      (handleImageProxyRequest wTie envC1 0 localsEx initialResponse true).response.body =
        none ∧
      (handleImageProxyRequest wTie envC1 0 localsEx initialResponse true).response.redirectedTo =
        some localsEx.url) :=
  c4_strict_size_comparison wTie envC1 0 localsEx true
    { headers := [], body := [0, 0, 0] }
    { format := ImgFormat.jpeg, image := { data := [1], info := { size := 3 } },
      sizes := none }
    (Or.inl rfl) rfl rfl

/-- C6 (confirmed): on an exception thrown by the fetch or by compression,
    the handler logs an error, redirects to the original URL exactly when
    response headers were not yet sent, and never emits a body, so no double
    response is produced. -/
theorem c6_error_redirect_guard (w : World) (env : Env) (idx : Nat)
    (locals : Locals) (alt : Bool) (resp : ResponseState)
    (herr : (∃ e, w.fetch idx locals.url = .error e) ∨
      (∃ fr e, w.fetch idx locals.url = .ok fr ∧
        compressUsed w env fr.body (formatAssign locals alt) = .error e)) :
    (handleImageProxyRequest w env idx locals resp alt).errorLogged = true ∧
    (handleImageProxyRequest w env idx locals resp alt).response.redirectedTo =
      (if resp.headersSent then resp.redirectedTo else some locals.url) ∧
    (handleImageProxyRequest w env idx locals resp alt).response.body = resp.body := by
  rw [handleImageProxyRequest]
  rcases herr with ⟨e, he⟩ | ⟨fr, e, hf, hc⟩
  · by_cases hs : resp.headersSent <;>
      simp [formatAssign_url, he, hs, redirectResponse]
  · by_cases hs : resp.headersSent <;>
      simp [formatAssign_url, hf, hc, hs, redirectResponse, setHeaders_headersSent,
        setHeaders_body, setHeaders_redirectedTo]

/-- C6 (witness): a fetch exception on a fresh response logs the error and
    redirects, with no body. -/
theorem c6_error_redirect_guard_witness :
    (handleImageProxyRequest wErr envC1 0 localsEx initialResponse false).errorLogged = true ∧
    (handleImageProxyRequest wErr envC1 0 localsEx initialResponse false).response.redirectedTo =
      (if initialResponse.headersSent then initialResponse.redirectedTo
       else some localsEx.url) ∧
    (handleImageProxyRequest wErr envC1 0 localsEx initialResponse false).response.body =
      initialResponse.body :=
  c6_error_redirect_guard wErr envC1 0 localsEx false initialResponse
    (.inl ⟨"ECONNRESET", rfl⟩)

/-- C7 (confirmed): on a win (savedSize > 0) the response carries identity
    content-encoding, a content-type matching the chosen format,
    content-length equal to the compressed size, x-original-size equal to the
    original size, x-bytes-saved equal to originalSize - compressedSize, no
    transfer-encoding header, and the compressed bytes as the body. -/
theorem c7_win_path_headers (w : World) (env : Env) (idx : Nat) (locals : Locals)
    (alt : Bool) (fr : FetchResult) (c : CompressedImageResult)
    (hf : w.fetch idx locals.url = .ok fr)
    (hc : compressUsed w env fr.body (formatAssign locals alt) = .ok c)
    (hwin : c.image.info.size < fr.body.length) :
    getHeader (handleImageProxyRequest w env idx locals initialResponse alt).response
      "content-encoding" = some "identity" ∧
    getHeader (handleImageProxyRequest w env idx locals initialResponse alt).response
      "content-type" = some ("image/" ++ formatName c.format) ∧
    getHeader (handleImageProxyRequest w env idx locals initialResponse alt).response
      "content-length" = some (toString c.image.info.size) ∧
    getHeader (handleImageProxyRequest w env idx locals initialResponse alt).response
      "x-original-size" = some (toString fr.body.length) ∧
    getHeader (handleImageProxyRequest w env idx locals initialResponse alt).response
      "x-bytes-saved" =
      some (toString ((fr.body.length : Int) - (c.image.info.size : Int))) ∧
    getHeader (handleImageProxyRequest w env idx locals initialResponse alt).response
      "transfer-encoding" = none ∧
    (handleImageProxyRequest w env idx locals initialResponse alt).response.body =
      some c.image.data := by
  rw [handleImageProxyRequest]
  simp [formatAssign_url, hf, hc, hwin, getHeader, sendBody, setHeaders, setHeader,
    lookupAssoc_assocSet_self, lookupAssoc_assocSet_ne, removeHeader,
    lookupAssoc_removeAssoc_self]

set_option maxRecDepth 8192 in
/-- C7 (witness): the spec's example, 1000 original bytes compressed to 600,
    gives x-bytes-saved 400 and content-length 600, with the compressed bytes
    as the body. -/
theorem c7_win_path_headers_witness :
    getHeader (handleImageProxyRequest wWin envC1 0 localsEx initialResponse false).response
      "x-bytes-saved" = some "400" ∧
    getHeader (handleImageProxyRequest wWin envC1 0 localsEx initialResponse false).response
      "content-length" = some "600" ∧
    getHeader (handleImageProxyRequest wWin envC1 0 localsEx initialResponse false).response
      "x-original-size" = some "1000" ∧
    (handleImageProxyRequest wWin envC1 0 localsEx initialResponse false).response.body =
      some [9] := by
  have h := c7_win_path_headers wWin envC1 0 localsEx false
    { headers := [], body := List.replicate 1000 0 }
    { format := ImgFormat.webp, image := { data := [9], info := { size := 600 } },
      sizes := none }
    rfl rfl (by rw [List.length_replicate]; norm_num)
  obtain ⟨_, _, h3, h4, h5, _, h7⟩ := h
  rw [List.length_replicate] at h4 h5
  refine ⟨?_, ?_, ?_, h7⟩
  · rw [h5]; decide
  · rw [h3]; decide
  · rw [h4]; decide

/-- C5 (counterexample): when request B is parsed during request A's fetch
    await, the Locals value observed by A's compression call is no longer A's
    own context, contradicting the claim that handling one request never
    changes the context observed by any other request. -/
theorem c5_counterexample :
    localsObservedByInterleavedCompress qAc5 qBc5 ≠
      (parseRequestParameters qAc5).locals := by
  decide

/-- C5 (corrected): the Request Context is constructed once per request by the
    Parameter Extractor and the handler's format assignment changes the field
    only on the fallback attempt, but the context lives on worker-wide
    application state: whenever both requests parse successfully, the
    compression call of a request that awaited its fetch while the other was
    parsed observes the other request's context. -/
theorem c5_shared_context (qA qB : List (String × String)) (ctxA ctxB : Locals)
    (hA : (parseRequestParameters qA).locals = some ctxA)
    (hB : (parseRequestParameters qB).locals = some ctxB) :
    formatAssign ctxA false = ctxA ∧
    (formatAssign ctxA true).format = flipFormat ctxA.format ∧
    localsObservedByInterleavedCompress qA qB = some ctxB := by
  refine ⟨formatAssign_false ctxA, rfl, ?_⟩
  simp [localsObservedByInterleavedCompress, hA, hB]

/-- C5 (witness): the interleaved observation evaluated at the two concrete
    query strings: request A's compression observes request B's context. -/
theorem c5_shared_context_witness :
    localsObservedByInterleavedCompress qAc5 qBc5 =
      some { url := "http://b.example/two.png", format := ImgFormat.jpeg,
             grayscale := false, quality := some 80 } :=
  (c5_shared_context qAc5 qBc5
    { url := "http://a.example/one.png", format := ImgFormat.webp,
      grayscale := false, quality := some 80 }
    { url := "http://b.example/two.png", format := ImgFormat.jpeg,
      grayscale := false, quality := some 80 }
    (by decide) (by decide)).2.2

/-- C8 (counterexample): at exactly 10 000 ms and at exactly 60 000 ms the
    timer tick reaches the reclamation hint, contradicting the claim that the
    hint never fires at the boundaries. -/
theorem c8_counterexample :
    idleReclaimFires (10 * 1000) = true ∧ idleReclaimFires (60 * 1000) = true := by
  decide

/-- C8 (corrected): the idle reclamation hint fires exactly when the elapsed
    time since the last accepted request lies in the closed interval from
    10 000 ms to 60 000 ms; both boundaries fire, and outside the interval the
    tick does nothing. -/
theorem c8_inclusive_window (t : Nat) :
    idleReclaimFires t = true ↔ (10 * 1000 ≤ t ∧ t ≤ 60 * 1000) := by
  unfold idleReclaimFires
  split <;> rename_i h <;> simp at h ⊢ <;> omega

/-- C9 (confirmed, modelled from the spec for the express-queue middleware):
    with no activeLimit configured every request proceeds immediately and the
    state is untouched; at capacity an arriving request joins the back of the
    queue and slots are released to the front (FIFO arrival order), unless
    queuedLimit is finite and the queued count has reached it, in which case
    the request is rejected immediately. -/
theorem c9_admission_control :
    (∀ st r, requestAdmitted none st r = (.proceed, st)) ∧
    (∀ cfg st r, ¬((st.active : Int) < cfg.activeLimit) →
      ¬(0 ≤ cfg.queuedLimit ∧ cfg.queuedLimit ≤ (st.queued.length : Int)) →
      admitRequest cfg st r =
        (.enqueued, { st with queued := st.queued ++ [r] })) ∧
    (∀ st q rest, st.queued = q :: rest →
      releaseSlot st = (some q, { st with queued := rest })) ∧
    (∀ cfg st r, ¬((st.active : Int) < cfg.activeLimit) →
      0 ≤ cfg.queuedLimit → cfg.queuedLimit ≤ (st.queued.length : Int) →
      admitRequest cfg st r = (.rejected, st)) := by
  refine ⟨fun st r => rfl, fun cfg st r h1 h2 => ?_, fun st q rest h => ?_,
    fun cfg st r h1 h2 h3 => ?_⟩
  · simp [admitRequest, h1, h2]
  · simp [releaseSlot, h]
  · simp [admitRequest, h1, h2, h3]

/-- C9 (witness): concrete runs of the admission model: bypass with no
    configuration, FIFO enqueue and release, and rejection at a finite
    queuedLimit. -/
theorem c9_admission_control_witness :
    requestAdmitted none { active := 5, queued := [] } 3 =
      (.proceed, { active := 5, queued := [] }) ∧
    admitRequest { activeLimit := 1, queuedLimit := 2 } { active := 1, queued := [7] } 9 =
      (.enqueued, { active := 1, queued := [7, 9] }) ∧
    releaseSlot { active := 1, queued := [7, 9] } =
      (some 7, { active := 1, queued := [9] }) ∧
    admitRequest { activeLimit := 1, queuedLimit := 1 } { active := 1, queued := [7] } 9 =
      (.rejected, { active := 1, queued := [7] }) :=
  ⟨c9_admission_control.1 _ _,
   c9_admission_control.2.1 _ _ _ (by decide) (by decide),
   c9_admission_control.2.2.1 _ 7 [9] rfl,
   c9_admission_control.2.2.2 _ _ _ (by decide) (by decide) (by decide)⟩

/-- C10 (confirmed): a request whose query has no url parameter is answered
    with the static plaintext identification body, next() is not called (the
    pipeline stops, so no fetch and no compression can happen), and no Request
    Context is stored. -/
theorem c10_missing_url_short_circuit (query : List (String × String))
    (h : ∀ p ∈ query, p.1 ≠ "url") :
    parseRequestParameters query =
      { responseBody := some "bandwidth-hero-proxy", nextCalled := false,
        locals := none } := by
  have hurl : (collectParams query emptyFilteredParams "").1.url = none :=
    collectParams_url_of_ne query _ _ h
  simp only [parseRequestParameters]
  rw [hurl]

/-- C10 (witness): the short-circuit evaluated at a concrete query with no
    url key. -/
theorem c10_missing_url_short_circuit_witness :
    parseRequestParameters [("x", "1"), ("y", "")] =
      { responseBody := some "bandwidth-hero-proxy", nextCalled := false,
        locals := none } :=
  c10_missing_url_short_circuit [("x", "1"), ("y", "")] (by decide)
